import Mathlib

/-!
# Verification of the ai-scraper job-queue subsystem

Shallow embedding of the job lifecycle and priority-queue subsystem of the
`evaou/ai-scraper` repository, together with theorems settling the claims of
the natural-language specification against the code.

Embedded modules and the source they are translated from:

* `app/services/queue.py` — class `JobQueue` operating on Redis structures:
  a sorted set `job_queue` (ready), a set `processing_jobs` (in-flight) with
  per-job `processing:{id}` timestamp keys, a sorted set `retry_queue`
  (retry-delayed), and a list `dead_letter_queue`.  Redis sorted sets are
  modelled as association lists `List (String × ℤ)` with distinct keys
  maintained by construction, ordered on retrieval by `(score, member)`
  exactly as Redis orders them.  Scores and timestamps (UNIX timestamps
  and derived values, Python floats in the source) are modelled as `ℤ`:
  the queue logic applies only addition, constant scaling, subtraction and
  order comparison to them, so every property settled here is insensitive
  to sub-integer time resolution.
* `app/core/redis.py` — class `RedisQueue` (sorted set keyed by priority,
  `bzpopmax` dequeue) used by the API route and the worker.
* `app/crud/job.py` — `JobCRUD.increment_retry_count`, `update_status`;
  the job store (PostgreSQL) is modelled as an association list from job id
  to `DBJob`, wrapped in `Option` so that `none` models an unavailable
  store (every `async with get_db_session()` in the source raising).
* `app/models/job.py` — `JobStatus`, the `Job` columns the queue logic reads.
* `app/worker/scraper_worker.py` — the cache-first portion of
  `ScraperWorker.process_job` and the retry path, abstracted over the
  external scraper call.

One deliberate point of faithfulness-to-the-source that a reader must know:
`JobQueue._schedule_retry` (queue.py lines 203-207) reads
`self.settings.RETRY_DELAY` and `self.settings.RETRY_BACKOFF`.  The
`Settings` class in `app/core/config.py` declares *no* fields of those
names (it declares `backoff_base`/`backoff_max` instead, and pydantic
settings do not expose undeclared attributes), so that attribute access
raises `AttributeError` at run time.  The surrounding
`try/except Exception` swallows the error.  Consequently, in the source as
written, `_schedule_retry` increments `retry_count` and commits status
RETRYING to the job store, and then stops: the `zadd` to `retry_queue` and
the status-cache write at lines 209-217 are unreachable.  `schedule_retry`
below embeds exactly this behaviour; `retryDelaySeconds` separately embeds
the (dead) delay formula of lines 204-207.
-/

namespace AiScraper

/-- Job status enum from `app/models/job.py` (`JobStatus`). -/
inductive JobStatus where
  | pending
  | running
  | completed
  | failed
  | cancelled
  | retrying
deriving DecidableEq, Repr

/-- The columns of a `jobs` row that the queue and worker logic read and
write (`app/models/job.py`, class `Job`). -/
structure DBJob where
  retry_count : Nat
  max_retries : Nat
  status : JobStatus
  error_message : Option String := none
  started_at : Option ℤ := none
  completed_at : Option ℤ := none
  priority : Int := 0
deriving DecidableEq, Repr

/-- `Job.can_retry` property from `app/models/job.py`: status is FAILED and
`retry_count < max_retries`. -/
def DBJob.can_retry (j : DBJob) : Bool :=
  j.status = JobStatus.failed ∧ j.retry_count < j.max_retries

/-- The job store: rows keyed by job id (UUIDs, modelled as strings). -/
abbrev DB := List (String × DBJob)

/-- The job store wrapped in availability: `none` models the store being
unreachable, i.e. every `async with get_db_session()` /
`AsyncSessionLocal()` block in the source raising an exception. -/
abbrev Store := Option DB

/-- Row lookup (`session.get(Job, UUID(job_id))` / `JobCRUD.get`). -/
def dbGet (db : DB) (id : String) : Option DBJob :=
  match db.find? (fun p => p.1 == id) with
  | some p => some p.2
  | none => none

/-- Row update (commit of a mutated ORM object): overwrites the row with
key `id`, inserting it if absent. -/
def dbSet (db : DB) (id : String) (j : DBJob) : DB :=
  if db.any (fun p => p.1 == id) then
    db.map (fun p => if p.1 == id then (id, j) else p)
  else
    db ++ [(id, j)]

/-! ## Redis sorted sets, sets, and plain keys

A Redis sorted set is a set of members each with a float score, ordered by
`(score, member)` with members compared lexicographically.  Modelled as an
association list with distinct keys maintained by construction. -/

/-- Assignment into a string-keyed association list (`SETEX`, status-cache
writes): overwrite or insert. -/
def kvSet {α : Type} (l : List (String × α)) (k : String) (v : α) :
    List (String × α) :=
  if l.any (fun p => p.1 == k) then
    l.map (fun p => if p.1 == k then (k, v) else p)
  else
    l ++ [(k, v)]

/-- Lookup in a string-keyed association list (`GET`). -/
def kvGet {α : Type} (l : List (String × α)) (k : String) : Option α :=
  match l.find? (fun p => p.1 == k) with
  | some p => some p.2
  | none => none

/-- Key deletion (`DELETE`). -/
def kvDel {α : Type} (l : List (String × α)) (k : String) :
    List (String × α) :=
  l.filter (fun p => p.1 != k)

/-- A Redis sorted set: member → score. -/
abbrev ZSet := List (String × ℤ)

/-- Member list of a sorted set. -/
def zkeys (z : ZSet) : List String := z.map (·.1)

/-- `ZSCORE`: the score of a member, if present. -/
def zscore (z : ZSet) (m : String) : Option ℤ :=
  kvGet z m

/-- `ZADD` with default flags: if the member exists its score is updated
and it counts as 0 added; otherwise it is inserted and counts as 1 added.
Returns the new set and whether the member was newly added. -/
def zadd (z : ZSet) (m : String) (s : ℤ) : ZSet × Bool :=
  if z.any (fun p => p.1 == m) then
    (z.map (fun p => if p.1 == m then (m, s) else p), false)
  else
    (z ++ [(m, s)], true)

/-- `ZREM`: removes the member; returns the new set and whether the member
was present. -/
def zrem (z : ZSet) (m : String) : ZSet × Bool :=
  (z.filter (fun p => p.1 != m), z.any (fun p => p.1 == m))

/-- Redis sorted-set ordering: ascending by score, ties broken by
lexicographic member order. -/
def entryLt (a b : String × ℤ) : Bool :=
  decide (a.2 < b.2) || (decide (a.2 = b.2) && decide (a.1 < b.1))

/-- Fold step selecting the least entry in `(score, member)` order. -/
def pickMin (acc : Option (String × ℤ)) (p : String × ℤ) :
    Option (String × ℤ) :=
  match acc with
  | none => some p
  | some q => if entryLt p q then some p else some q

/-- Fold step selecting the greatest entry in `(score, member)` order. -/
def pickMax (acc : Option (String × ℤ)) (p : String × ℤ) :
    Option (String × ℤ) :=
  match acc with
  | none => some p
  | some q => if entryLt q p then some p else some q

/-- First entry of `ZRANGEBYSCORE key lo hi LIMIT 0 1`: the least eligible
entry in `(score, member)` order among those with `lo ≤ score ≤ hi`. -/
def zrangeByScoreHead (z : ZSet) (lo hi : ℤ) : Option (String × ℤ) :=
  (z.filter (fun p => decide (lo ≤ p.2 ∧ p.2 ≤ hi))).foldl pickMin none

/-- Insertion into a list sorted by `(score, member)`. -/
def insertEntry (p : String × ℤ) : List (String × ℤ) → List (String × ℤ)
  | [] => [p]
  | q :: t => if entryLt p q then p :: q :: t else q :: insertEntry p t

/-- `ZRANGEBYSCORE key lo hi`: all eligible entries in ascending
`(score, member)` order. -/
def zrangeByScore (z : ZSet) (lo hi : ℤ) : List (String × ℤ) :=
  (z.filter (fun p => decide (lo ≤ p.2 ∧ p.2 ≤ hi))).foldr insertEntry []

/-- `SADD` on a plain Redis set. -/
def sadd (l : List String) (m : String) : List String :=
  if l.any (fun x => x == m) then l else l ++ [m]

/-- `SREM` on a plain Redis set. -/
def srem (l : List String) (m : String) : List String :=
  l.filter (fun x => x != m)

/-! ## `JobQueue` state (`app/services/queue.py`) -/

/-- The Redis state owned by `JobQueue`: the `job_queue` sorted set
(ready), the `processing_jobs` set plus the `processing:{id}` timestamp
keys (in-flight), the `retry_queue` sorted set (retry-delayed), the
`dead_letter_queue` list, and the `job_status:{id}` status-cache entries
written through `set_job_status` (`app/core/cache.py`), recorded as
job id → status string. -/
structure QState where
  ready : ZSet := []
  processing : List String := []
  procStamp : List (String × ℤ) := []
  retryQ : ZSet := []
  dlq : List String := []
  statusCache : List (String × String) := []
deriving DecidableEq, Repr

/-- Member list of the ready set. -/
def QState.readyIds (q : QState) : List String := zkeys q.ready

/-- Member list of the retry-delayed set. -/
def QState.retryIds (q : QState) : List String := zkeys q.retryQ

/-- `JobQueue.enqueue_job` (queue.py lines 33-76).  Computes
`score = now + delay_seconds + priority * 1000` and issues `ZADD`.  If the
member was newly added, the status cache is set to "queued" and True is
returned; otherwise (member already present — its score has nevertheless
just been updated by the `ZADD`) False is returned. -/
def enqueue_job (q : QState) (id : String) (priority : Int) (delay : ℤ)
    (now : ℤ) : QState × Bool :=
  let score := now + delay + priority * 1000
  let r := (zadd q.ready id score).1
  if (zadd q.ready id score).2 then
    ({ q with ready := r, statusCache := kvSet q.statusCache id "queued" },
      true)
  else
    ({ q with ready := r }, false)

/-- First phase of `JobQueue.dequeue_job` (queue.py lines 89-106): the
`ZRANGEBYSCORE job_queue 0 now LIMIT 0 1` read observing the first ready
entry whose score (readiness time) is ≤ now. -/
def dequeueRead (q : QState) (now : ℤ) : Option String :=
  (zrangeByScoreHead q.ready 0 now).map (·.1)

/-- Second phase of `JobQueue.dequeue_job` (queue.py lines 108-126): the
`MULTI/EXEC` pipeline `ZREM job_queue id; SADD processing_jobs id;
SETEX processing:{id} now`, executed atomically, followed by the check of
the `ZREM` reply: only if the member was actually removed is the status
cache set to "processing" and the claim considered successful. -/
def dequeueClaim (q : QState) (id : String) (now : ℤ) : QState × Bool :=
  let q' : QState := { q with
    ready := (zrem q.ready id).1
    processing := sadd q.processing id
    procStamp := kvSet q.procStamp id now }
  if (zrem q.ready id).2 then
    ({ q' with statusCache := kvSet q'.statusCache id "processing" }, true)
  else
    (q', false)

/-- `JobQueue.dequeue_job` (queue.py lines 78-130) run without
interference: read, then claim; returns the claimed id, or `none` when no
entry is eligible or the claim's `ZREM` found the entry already gone. -/
def dequeue_job (q : QState) (now : ℤ) : QState × Option String :=
  match dequeueRead q now with
  | none => (q, none)
  | some id =>
      ((dequeueClaim q id now).1,
        if (dequeueClaim q id now).2 then some id else none)

/-- `JobQueue._should_retry_job` (queue.py lines 180-188): reads the job
row and returns `retry_count < max_retries`; any exception — including the
store being unavailable — is caught and False is returned. -/
def should_retry_job (st : Store) (id : String) : Bool :=
  match st with
  | none => false
  | some db =>
      match dbGet db id with
      | none => false
      | some j => decide (j.retry_count < j.max_retries)

/-- The retry-delay formula written at queue.py lines 204-207:
`min(RETRY_DELAY * RETRY_BACKOFF ** (retry_count - 1), 300)`.  In the
source this code is unreachable (see the module docstring): `Settings`
declares no `RETRY_DELAY`/`RETRY_BACKOFF` fields, so the attribute read on
line 204 raises before this expression is evaluated. -/
def retryDelaySeconds (base mult : ℚ) (retry_count : Nat) : ℚ :=
  min (base * mult ^ (retry_count - 1)) 300

/-- `JobQueue._schedule_retry` (queue.py lines 190-222).  Loads the job
row; if present, increments `retry_count`, sets status RETRYING and
commits.  The next statement reads `self.settings.RETRY_DELAY`; `Settings`
(`app/core/config.py`) declares no such field, so the read raises
`AttributeError`, which the enclosing `except Exception` swallows: the
`ZADD retry_queue` and the status-cache write never execute.  When the
store is unavailable the session raises immediately and nothing at all
happens. -/
def schedule_retry (st : Store) (q : QState) (id : String) :
    Store × QState :=
  match st with
  | none => (none, q)
  | some db =>
      match dbGet db id with
      | none => (some db, q)
      | some j =>
          let j' := { j with
            retry_count := j.retry_count + 1
            status := JobStatus.retrying }
          (some (dbSet db id j'), q)

/-- `JobQueue.complete_job` (queue.py lines 132-178).  Unconditionally
removes the id from the processing set and deletes its timestamp key.  On
success, writes status "completed" to the status cache.  On failure,
writes status "failed", then consults `_should_retry_job`: if it returns
True, `_schedule_retry` runs; otherwise the id is `LPUSH`ed onto the
dead-letter list.  Returns True in every non-exception path. -/
def complete_job (st : Store) (q : QState) (id : String) (success : Bool) :
    Store × QState × Bool :=
  let q1 := { q with
    processing := srem q.processing id
    procStamp := kvDel q.procStamp id }
  if success then
    (st, { q1 with statusCache := kvSet q1.statusCache id "completed" },
      true)
  else
    let q2 := { q1 with statusCache := kvSet q1.statusCache id "failed" }
    if should_retry_job st id then
      ((schedule_retry st q2 id).1, (schedule_retry st q2 id).2, true)
    else
      (st, { q2 with dlq := id :: q2.dlq }, true)

/-- One iteration of the loop in `JobQueue.process_retry_queue` (queue.py
lines 241-254): the pipeline `ZREM retry_queue id; ZADD job_queue id now`
(both commands run), then, only if the `ZREM` reply shows the member was
moved, the status cache is set to "queued" and the moved counter is
incremented. -/
def promoteStep (now : ℤ) (acc : QState × Nat) (id : String) :
    QState × Nat :=
  let q := acc.1
  let q' : QState := { q with
    retryQ := (zrem q.retryQ id).1
    ready := (zadd q.ready id now).1 }
  if (zrem q.retryQ id).2 then
    ({ q' with statusCache := kvSet q'.statusCache id "queued" }, acc.2 + 1)
  else
    (q', acc.2)

/-- `JobQueue.process_retry_queue` (queue.py lines 224-263): snapshots the
retry-queue entries with score ≤ now (`ZRANGEBYSCORE retry_queue 0 now`),
then moves each back to the ready set with score = now. -/
def process_retry_queue (q : QState) (now : ℤ) : QState × Nat :=
  let jobs := (zrangeByScore q.retryQ 0 now).map (·.1)
  jobs.foldl (promoteStep now) (q, 0)

/-- One iteration of the loop in `JobQueue.cleanup_stale_jobs` (queue.py
lines 305-322).  For a processing-set member: if its `processing:{id}`
timestamp key is missing, remove it from the processing set and call
`_schedule_retry`; if the timestamp shows the job has been in flight
longer than `maxAge`, remove it from the processing set, delete the
timestamp key, and call `_schedule_retry`; otherwise leave it alone. -/
def cleanupStep (maxAge now : ℤ) (acc : Store × QState × Nat)
    (id : String) : Store × QState × Nat :=
  let st := acc.1
  let q := acc.2.1
  match kvGet q.procStamp id with
  | none =>
      let q1 := { q with processing := srem q.processing id }
      ((schedule_retry st q1 id).1, (schedule_retry st q1 id).2, acc.2.2 + 1)
  | some start =>
      if maxAge < now - start then
        let q1 := { q with
          processing := srem q.processing id
          procStamp := kvDel q.procStamp id }
        ((schedule_retry st q1 id).1, (schedule_retry st q1 id).2,
          acc.2.2 + 1)
      else
        acc

/-- `JobQueue.cleanup_stale_jobs` (queue.py lines 296-331): snapshots the
processing set (`SMEMBERS`), then reclaims each member whose claim age
exceeds `maxAge` (or whose timestamp key is missing).  Note that
reclamation calls `_schedule_retry` directly: it does not consult
`_should_retry_job` and has no dead-letter branch. -/
def cleanup_stale_jobs (st : Store) (q : QState) (maxAge now : ℤ) :
    Store × QState × Nat :=
  q.processing.foldl (cleanupStep maxAge now) (st, q, 0)

/-! ## `JobCRUD` (`app/crud/job.py`) -/

/-- `JobCRUD.increment_retry_count` (crud/job.py lines 138-156): loads the
row; if present, increments `retry_count`, sets status PENDING, clears
`error_message`/`started_at`/`completed_at`, commits, and returns the
updated row.  There is no guard against exceeding `max_retries`. -/
def increment_retry_count (db : DB) (id : String) : DB × Option DBJob :=
  match dbGet db id with
  | none => (db, none)
  | some j =>
      let j' := { j with
        retry_count := j.retry_count + 1
        status := JobStatus.pending
        error_message := none
        started_at := none
        completed_at := none }
      (dbSet db id j', some j')

/-! ## `RedisQueue` (`app/core/redis.py` lines 236-303)

The queue implementation actually wired to the API route
(`app/api/routes/scraping.py`) and the worker
(`app/worker/scraper_worker.py`): a sorted set whose score *is* the job's
priority, popped with `BZPOPMAX` ("higher score = higher priority" per the
source comment), plus a `…:processing` sorted set. -/

/-- Redis sorted-set *maximum* ordering (what `ZPOPMAX`/`BZPOPMAX` pop):
the greatest entry in `(score, member)` order. -/
def zpopmax (z : ZSet) : Option (String × ℤ) × ZSet :=
  match z.foldl pickMax none with
  | none => (none, z)
  | some e => (some e, (zrem z e.1).1)

/-- State owned by a `RedisQueue`: the main sorted set and the
`…:processing` sorted set. -/
structure RQState where
  queue : ZSet := []
  processing : ZSet := []
deriving DecidableEq, Repr

/-- `RedisQueue.enqueue` (redis.py lines 244-252): `ZADD` with the job's
priority as score; returns whether a new member was added. -/
def rqEnqueue (s : RQState) (id : String) (priority : Int) :
    RQState × Bool :=
  ({ s with queue := (zadd s.queue id priority).1 },
    (zadd s.queue id priority).2)

/-- `RedisQueue.dequeue` (redis.py lines 254-267): `BZPOPMAX` pops the
highest-priority entry; the popped entry is then `ZADD`ed (same score)
into the processing sorted set. -/
def rqDequeue (s : RQState) : RQState × Option String :=
  match zpopmax s.queue with
  | (none, _) => (s, none)
  | (some (id, sc), z) =>
      ({ queue := z, processing := (zadd s.processing id sc).1 }, some id)

/-- `RedisQueue.complete_job` (redis.py lines 269-276): `ZREM` from the
processing sorted set. -/
def rqCompleteJob (s : RQState) (id : String) : RQState × Bool :=
  ({ s with processing := (zrem s.processing id).1 },
    (zrem s.processing id).2)

/-- `RedisQueue.retry_job` (redis.py lines 278-287): removes the id from
the processing sorted set and re-adds it to the main queue with
score = priority — immediately, with no delay. -/
def rqRetryJob (s : RQState) (id : String) (priority : Int) :
    RQState × Bool :=
  ({ queue := (zadd s.queue id priority).1
     processing := (zrem s.processing id).1 },
    (zadd s.queue id priority).2)

/-! ## Worker cache path (`app/worker/scraper_worker.py` lines 162-185)

`ScraperWorker.process_job` consults `get_cached_url_result(job.url)`
before invoking the scraper, and fills the cache with
`cache_url_result(job.url, result)` after a successful scrape.  Both
(redis.py lines 322-339) key the cache entry by
`url_cache:{sha256(url)[:16]}` — a function of the URL alone; the job's
selector and options do not enter the key.  The hash is abstracted as a
`keyFn : String → String` parameter; the only fact the embedding takes
from the source is that it is applied to `job.url` and nothing else.  The
external scraper call (`scrape_url`, which reads `job.url`, `job.selector`
and `job.options`) is abstracted as a function parameter `scrape` from
(url, selector) to the result payload. -/

/-- The fields of a job the worker's cache-vs-scrape logic depends on. -/
structure WJob where
  url : String
  selector : Option String
deriving DecidableEq, Repr

/-- `get_cached_url_result` (redis.py lines 332-339): lookup keyed by
`keyFn job.url` only. -/
def get_cached_url_result {α : Type} (keyFn : String → String)
    (cache : List (String × α)) (url : String) : Option α :=
  kvGet cache (keyFn url)

/-- `cache_url_result` (redis.py lines 322-329): store keyed by
`keyFn url` only. -/
def cache_url_result {α : Type} (keyFn : String → String)
    (cache : List (String × α)) (url : String) (r : α) :
    List (String × α) :=
  kvSet cache (keyFn url) r

/-- The cache-first portion of `ScraperWorker.process_job` (worker lines
162-195): on a cache hit the cached payload is saved as this job's Result
and the job completes without calling the scraper; on a miss the scraper
runs on the job's url and selector, its result is saved and the cache is
filled.  Returns the payload recorded as the job's Result and the new
cache. -/
def worker_run_job {α : Type} (keyFn : String → String)
    (scrape : String → Option String → α) (cache : List (String × α))
    (j : WJob) : α × List (String × α) :=
  match get_cached_url_result keyFn cache j.url with
  | some r => (r, cache)
  | none =>
      let r := scrape j.url j.selector
      (r, cache_url_result keyFn cache j.url r)

/-- The same job executed without the cache: the payload recorded as the
job's Result is exactly the scraper's output for the job's url and
selector. -/
def worker_run_job_nocache {α : Type} (scrape : String → Option String → α)
    (j : WJob) : α :=
  scrape j.url j.selector

/-! ## Invariant predicates -/

/-- The job-store row invariant stated by the spec:
`retry_count <= max_retries` for every row. -/
def DBInv (db : DB) : Prop :=
  ∀ p ∈ db, p.2.retry_count ≤ p.2.max_retries

/-- `DBInv` lifted to a possibly-unavailable store. -/
def StoreInv : Store → Prop
  | none => True
  | some db => DBInv db

/-- The spec's queue-entry disjointness: each job id occupies at most one
of the ready, in-flight and retry-delayed sets. -/
def DisjointSets (q : QState) : Prop :=
  (∀ m ∈ q.readyIds, m ∉ q.processing ∧ m ∉ q.retryIds) ∧
  (∀ m ∈ q.processing, m ∉ q.retryIds)

/-! ## Two concurrent `dequeue_job` calls

`JobQueue.dequeue_job` is two atomic Redis commands: the
`ZRANGEBYSCORE` read (`dequeueRead`) and the `MULTI/EXEC` claim pipeline
(`dequeueClaim`); between them another worker's commands may interleave
(redis-py pipelines with `transaction=True` execute atomically, so the
claim itself is a single step).  A worker is modelled as a two-step
program and a pair of workers as a configuration stepped by an arbitrary
schedule of interleavings. -/

/-- Program counter of one worker executing `dequeue_job`. -/
inductive WPhase where
  | start
  | claiming (id : String)
  | finished (res : Option String)
deriving DecidableEq, Repr

/-- One atomic step of a worker's `dequeue_job`: from `start`, the
`ZRANGEBYSCORE` read (no state change); from `claiming id`, the atomic
claim pipeline; a finished worker does nothing. -/
def wstep (now : ℤ) (q : QState) : WPhase → QState × WPhase
  | WPhase.start =>
      match dequeueRead q now with
      | none => (q, WPhase.finished none)
      | some id => (q, WPhase.claiming id)
  | WPhase.claiming id =>
      ((dequeueClaim q id now).1,
        WPhase.finished (if (dequeueClaim q id now).2 then some id else none))
  | WPhase.finished r => (q, WPhase.finished r)

/-- Shared queue state plus the two workers' program counters. -/
structure PairCfg where
  q : QState
  w1 : WPhase
  w2 : WPhase
deriving DecidableEq, Repr

/-- Scheduler step: `true` steps worker 1 (dequeueing at time `t1`),
`false` steps worker 2 (at time `t2`). -/
def stepPair (t1 t2 : ℤ) (c : PairCfg) (w : Bool) : PairCfg :=
  match w with
  | true => { c with q := (wstep t1 c.q c.w1).1, w1 := (wstep t1 c.q c.w1).2 }
  | false => { c with q := (wstep t2 c.q c.w2).1, w2 := (wstep t2 c.q c.w2).2 }

/-- Run both workers' `dequeue_job` calls from queue state `q` under an
arbitrary interleaving schedule. -/
def runPair (t1 t2 : ℤ) (q : QState) (sched : List Bool) : PairCfg :=
  sched.foldl (stepPair t1 t2)
    { q := q, w1 := WPhase.start, w2 := WPhase.start }

/-- Safety invariant for the pair execution: a worker that returned job
`j` has removed it from the ready set, and the two workers never both
return `j`. -/
def PairInv (j : String) (c : PairCfg) : Prop :=
  (c.w1 = WPhase.finished (some j) → j ∉ c.q.readyIds) ∧
  (c.w2 = WPhase.finished (some j) → j ∉ c.q.readyIds) ∧
  ¬ (c.w1 = WPhase.finished (some j) ∧ c.w2 = WPhase.finished (some j))

/-! ## Concrete states used by the claim analyses -/

/-- Queue state after `enqueue_job("B", priority=1)` then
`enqueue_job("A", priority=5)` at time 0 with no delay: B gets score
1000, A gets score 5000. -/
def c2State : QState :=
  (enqueue_job (enqueue_job {} "B" 1 0 0).1 "A" 5 0 0).1

/-- `RedisQueue` state after `enqueue("B", priority=1)` then
`enqueue("A", priority=5)`. -/
def c2RqState : RQState :=
  (rqEnqueue (rqEnqueue {} "B" 1).1 "A" 5).1

/-- A store holding job "j" with `max_retries = 2` and no failures yet. -/
def c5Store : Store :=
  some [("j", { retry_count := 0, max_retries := 2, status := JobStatus.running })]

/-- Queue state with job "j" in flight. -/
def c5Q : QState := { processing := ["j"], procStamp := [("j", 0)] }

/-- First failure report for "j". -/
def c5Run1 : Store × QState × Bool := complete_job c5Store c5Q "j" false

/-- Second failure report for "j". -/
def c5Run2 : Store × QState × Bool :=
  complete_job c5Run1.1 c5Run1.2.1 "j" false

/-- Third failure report for "j". -/
def c5Run3 : Store × QState × Bool :=
  complete_job c5Run2.1 c5Run2.2.1 "j" false

/-- A store holding job "j" with retries exhausted
(`retry_count = max_retries = 2`). -/
def c3Db : DB :=
  [("j", { retry_count := 2, max_retries := 2, status := JobStatus.running })]

/-- Queue state with "j" in flight, claimed at time 0. -/
def c3Q : QState := { processing := ["j"], procStamp := [("j", 0)] }

/-- Queue state with job "j" already in the ready set with score 100. -/
def c6Q : QState := { ready := [("j", 100)] }

/-- A store row already at the retry cap
(`retry_count = max_retries = 3`). -/
def c4Db : DB :=
  [("j", { retry_count := 3, max_retries := 3, status := JobStatus.failed })]

/-- Stand-in for `sha256(url)[:16]` in the cache-key computation: the
embedding only uses that the key is a function of the URL alone, so the
identity function serves as a concrete instance. -/
def c10KeyFn : String → String := fun u => u

/-- A concrete external-scraper behaviour for the cache analysis: the
extracted payload is the selector text, so scrapes with different
selectors yield different payloads. -/
def c10Scrape : String → Option String → String := fun _ sel => sel.getD ""

/-- A job scraping `page.test` with selector `h1`. -/
def c10Job1 : WJob := { url := "https://page.test", selector := some "h1" }

/-- A job scraping the same URL with a different selector `.price`. -/
def c10Job2 : WJob :=
  { url := "https://page.test", selector := some ".price" }

/-- The URL cache after job 1 ran from an empty cache (cache-fill). -/
def c10Cache1 : List (String × String) :=
  (worker_run_job c10KeyFn c10Scrape [] c10Job1).2

/-- A URL cache whose entry for job 2's URL holds exactly what scraping
job 2's own selector produces: the consistency side condition of the
amended claim holds non-vacuously. -/
def c10HitCache : List (String × String) :=
  [("https://page.test", ".price")]

/-- A well-formed queue state occupying all three sets disjointly. -/
def c9Q : QState :=
  { ready := [("a", 0)], processing := ["b"], retryQ := [("c", 5)],
    procStamp := [("b", 0)] }

/-! ## Basic lemmas about the Redis-structure model -/

theorem mem_srem {l : List String} {a m : String} :
    a ∈ srem l m ↔ a ∈ l ∧ a ≠ m := by
  simp [srem, List.mem_filter]

theorem mem_sadd {l : List String} {a m : String} :
    a ∈ sadd l m ↔ a ∈ l ∨ a = m := by
  unfold sadd
  by_cases h : l.any (fun x => x == m) = true
  · rw [if_pos h]
    rcases List.any_eq_true.mp h with ⟨x, hx, he⟩
    rw [beq_iff_eq] at he
    subst he
    constructor
    · exact fun ha => Or.inl ha
    · rintro (ha | rfl)
      · exact ha
      · exact hx
  · rw [if_neg h]
    simp [List.mem_append]

theorem mem_zkeys {z : ZSet} {a : String} :
    a ∈ zkeys z ↔ ∃ p, p ∈ z ∧ p.1 = a := by
  simp [zkeys, List.mem_map]

theorem mem_zkeys_zrem {z : ZSet} {a m : String} :
    a ∈ zkeys (zrem z m).1 ↔ a ∈ zkeys z ∧ a ≠ m := by
  constructor
  · intro h
    rcases mem_zkeys.mp h with ⟨p, hp, rfl⟩
    rcases List.mem_filter.mp hp with ⟨hpz, hne⟩
    rw [bne_iff_ne] at hne
    exact ⟨mem_zkeys.mpr ⟨p, hpz, rfl⟩, hne⟩
  · rintro ⟨h, hne⟩
    rcases mem_zkeys.mp h with ⟨p, hp, rfl⟩
    exact mem_zkeys.mpr
      ⟨p, List.mem_filter.mpr ⟨hp, bne_iff_ne.mpr hne⟩, rfl⟩

theorem zrem_snd_true {z : ZSet} {m : String} :
    (zrem z m).2 = true ↔ m ∈ zkeys z := by
  constructor
  · intro h
    rcases List.any_eq_true.mp h with ⟨p, hp, he⟩
    rw [beq_iff_eq] at he
    exact mem_zkeys.mpr ⟨p, hp, he⟩
  · intro h
    rcases mem_zkeys.mp h with ⟨p, hp, rfl⟩
    exact List.any_eq_true.mpr ⟨p, hp, beq_iff_eq.mpr rfl⟩

theorem mem_zkeys_zadd {z : ZSet} {a m : String} {s : ℤ} :
    a ∈ zkeys (zadd z m s).1 ↔ a ∈ zkeys z ∨ a = m := by
  unfold zadd
  by_cases h : z.any (fun p => p.1 == m) = true
  · rw [if_pos h]
    rcases List.any_eq_true.mp h with ⟨w, hw, hwe⟩
    rw [beq_iff_eq] at hwe
    constructor
    · intro ha
      rcases mem_zkeys.mp ha with ⟨p, hp, hpa⟩
      rcases List.mem_map.mp hp with ⟨p0, hp0, he⟩
      by_cases h0 : p0.1 = m
      · rw [if_pos (beq_iff_eq.mpr h0)] at he
        right
        rw [← hpa, ← he]
      · rw [if_neg (by simpa using h0)] at he
        left
        exact mem_zkeys.mpr ⟨p0, hp0, by rw [he, hpa]⟩
    · intro ha
      rcases ha with ha | heq
      · rcases mem_zkeys.mp ha with ⟨p, hp, hpa⟩
        by_cases h0 : p.1 = m
        · refine mem_zkeys.mpr ⟨(m, s), List.mem_map.mpr ⟨p, hp, ?_⟩, ?_⟩
          · rw [if_pos (beq_iff_eq.mpr h0)]
          · rw [← hpa, ← h0]
        · refine mem_zkeys.mpr ⟨p, List.mem_map.mpr ⟨p, hp, ?_⟩, hpa⟩
          rw [if_neg (by simpa using h0)]
      · refine mem_zkeys.mpr ⟨(m, s), List.mem_map.mpr ⟨w, hw, ?_⟩, heq.symm⟩
        rw [if_pos (beq_iff_eq.mpr hwe)]
  · rw [if_neg h]
    simp only [zkeys, List.map_append, List.mem_append, List.map_cons,
      List.map_nil, List.mem_singleton]

theorem zscore_any {z : ZSet} {m : String} {s : ℤ}
    (h : zscore z m = some s) : z.any (fun p => p.1 == m) = true := by
  unfold zscore kvGet at h
  cases hf : z.find? (fun p => p.1 == m) with
  | none => rw [hf] at h; exact absurd h (by simp)
  | some p =>
      have hmem := List.mem_of_find?_eq_some hf
      have hpred := List.find?_some hf
      exact List.any_eq_true.mpr ⟨p, hmem, hpred⟩

theorem kvGet_kvSet_self {α : Type} (l : List (String × α)) (k : String)
    (v : α) : kvGet (kvSet l k v) k = some v := by
  induction l with
  | nil => simp [kvSet, kvGet]
  | cons p t ih =>
      by_cases h1 : (p.1 == k) = true
      · have hany : (p :: t).any (fun q => q.1 == k) = true := by
          simp [List.any_cons, h1]
        unfold kvSet
        rw [if_pos hany]
        simp only [List.map_cons, if_pos h1]
        unfold kvGet
        simp [List.find?_cons]
      · by_cases h2 : t.any (fun q => q.1 == k) = true
        · have hany : (p :: t).any (fun q => q.1 == k) = true := by
            simp [List.any_cons, h2]
          unfold kvSet
          rw [if_pos hany]
          simp only [List.map_cons, if_neg h1]
          unfold kvGet
          rw [List.find?_cons]
          rw [Bool.eq_false_iff.mpr h1]
          have iht := ih
          unfold kvSet at iht
          rw [if_pos h2] at iht
          unfold kvGet at iht
          exact iht
        · have hany : ¬ (p :: t).any (fun q => q.1 == k) = true := by
            simp only [List.any_cons, Bool.or_eq_true]
            rintro (hc | hc)
            · exact h1 hc
            · exact h2 hc
          unfold kvSet
          rw [if_neg hany]
          rw [List.cons_append]
          unfold kvGet
          rw [List.find?_cons]
          rw [Bool.eq_false_iff.mpr h1]
          have iht := ih
          unfold kvSet at iht
          rw [if_neg h2] at iht
          unfold kvGet at iht
          exact iht

theorem zadd_fst_eq_kvSet (z : ZSet) (m : String) (s : ℤ) :
    (zadd z m s).1 = kvSet z m s := by
  unfold zadd kvSet
  split <;> rfl

theorem zscore_eq_kvGet (z : ZSet) (m : String) : zscore z m = kvGet z m :=
  rfl

theorem zscore_zadd_self (z : ZSet) (m : String) (s : ℤ) :
    zscore (zadd z m s).1 m = some s := by
  rw [zadd_fst_eq_kvSet, zscore_eq_kvGet]
  exact kvGet_kvSet_self z m s

theorem zadd_snd_false (z : ZSet) (m : String) (s : ℤ)
    (h : z.any (fun p => p.1 == m) = true) : (zadd z m s).2 = false := by
  rw [zadd, if_pos h]

/-- `_schedule_retry` never changes any queue structure: the store row is
its only effect (the retry-set insertion in the source is unreachable). -/
theorem schedule_retry_snd (st : Store) (q : QState) (id : String) :
    (schedule_retry st q id).2 = q := by
  cases st with
  | none => rfl
  | some db =>
      cases h : dbGet db id with
      | none => simp [schedule_retry, h]
      | some j => simp [schedule_retry, h]

/-- `complete_job` never touches the retry-delayed set. -/
theorem complete_job_retryQ (st : Store) (q : QState) (id : String)
    (success : Bool) :
    (complete_job st q id success).2.1.retryQ = q.retryQ := by
  unfold complete_job
  cases success with
  | true => rfl
  | false =>
      by_cases h : should_retry_job st id = true
      · simp only [Bool.false_eq_true, if_false, h, if_true]
        rw [schedule_retry_snd]
      · simp only [Bool.false_eq_true, if_false, h, if_true]

theorem dbSet_mem {db : DB} {id : String} {j : DBJob} {p : String × DBJob}
    (h : p ∈ dbSet db id j) : p.2 = j ∨ p ∈ db := by
  unfold dbSet at h
  by_cases ha : db.any (fun q => q.1 == id) = true
  · rw [if_pos ha] at h
    rcases List.mem_map.mp h with ⟨p0, hp0, he⟩
    by_cases h0 : (p0.1 == id) = true
    · rw [if_pos h0] at he
      left
      rw [← he]
    · rw [if_neg h0] at he
      right
      rw [← he]
      exact hp0
  · rw [if_neg ha] at h
    rcases List.mem_append.mp h with h1 | h1
    · right
      exact h1
    · left
      rw [List.mem_singleton.mp h1]

/-! ## Lemmas about dequeue phases and reachable configurations -/

theorem pickMin_foldl_mem {l : List (String × ℤ)} :
    ∀ {acc : Option (String × ℤ)} {e : String × ℤ},
      l.foldl pickMin acc = some e → e ∈ l ∨ acc = some e := by
  induction l with
  | nil =>
      intro acc e h
      right
      exact h
  | cons p t ih =>
      intro acc e h
      rw [List.foldl_cons] at h
      rcases ih h with hmem | hacc
      · left
        exact List.mem_cons_of_mem p hmem
      · cases acc with
        | none =>
            left
            rw [← Option.some_inj.mp hacc]
            exact List.mem_cons_self p t
        | some q0 =>
            by_cases hlt : entryLt p q0 = true
            · simp only [pickMin] at hacc
              rw [if_pos hlt] at hacc
              left
              rw [← Option.some_inj.mp hacc]
              exact List.mem_cons_self p t
            · simp only [pickMin] at hacc
              rw [if_neg hlt] at hacc
              right
              exact hacc

theorem pickMax_foldl_mem {l : List (String × ℤ)} :
    ∀ {acc : Option (String × ℤ)} {e : String × ℤ},
      l.foldl pickMax acc = some e → e ∈ l ∨ acc = some e := by
  induction l with
  | nil =>
      intro acc e h
      right
      exact h
  | cons p t ih =>
      intro acc e h
      rw [List.foldl_cons] at h
      rcases ih h with hmem | hacc
      · left
        exact List.mem_cons_of_mem p hmem
      · cases acc with
        | none =>
            left
            rw [← Option.some_inj.mp hacc]
            exact List.mem_cons_self p t
        | some q0 =>
            by_cases hlt : entryLt q0 p = true
            · simp only [pickMax] at hacc
              rw [if_pos hlt] at hacc
              left
              rw [← Option.some_inj.mp hacc]
              exact List.mem_cons_self p t
            · simp only [pickMax] at hacc
              rw [if_neg hlt] at hacc
              right
              exact hacc

theorem zrangeByScoreHead_mem {z : ZSet} {lo hi : ℤ} {e : String × ℤ}
    (h : zrangeByScoreHead z lo hi = some e) : e ∈ z := by
  unfold zrangeByScoreHead at h
  rcases pickMin_foldl_mem h with hmem | habs
  · exact (List.mem_filter.mp hmem).1
  · exact absurd habs (by simp)

theorem dequeueRead_mem {q : QState} {now : ℤ} {id : String}
    (h : dequeueRead q now = some id) : id ∈ q.readyIds := by
  unfold dequeueRead at h
  rcases Option.map_eq_some'.mp h with ⟨e, he, hid⟩
  have hz := zrangeByScoreHead_mem he
  exact mem_zkeys.mpr ⟨e, hz, hid⟩

theorem dequeueClaim_ready (q : QState) (id : String) (now : ℤ) :
    (dequeueClaim q id now).1.ready = (zrem q.ready id).1 := by
  unfold dequeueClaim
  split <;> rfl

theorem dequeueClaim_processing (q : QState) (id : String) (now : ℤ) :
    (dequeueClaim q id now).1.processing = sadd q.processing id := by
  unfold dequeueClaim
  split <;> rfl

theorem dequeueClaim_retryQ (q : QState) (id : String) (now : ℤ) :
    (dequeueClaim q id now).1.retryQ = q.retryQ := by
  unfold dequeueClaim
  split <;> rfl

theorem dequeueClaim_snd_true {q : QState} {id : String} {now : ℤ} :
    (dequeueClaim q id now).2 = true ↔ id ∈ q.readyIds := by
  unfold dequeueClaim
  by_cases h : (zrem q.ready id).2 = true
  · rw [if_pos h]
    simp only [true_iff]
    exact zrem_snd_true.mp h
  · rw [if_neg h]
    simp only [Bool.false_eq_true, false_iff]
    intro hm
    exact h (zrem_snd_true.mpr hm)

theorem wstep_ready_subset (now : ℤ) (q : QState) (ph : WPhase) :
    ∀ a, a ∈ (wstep now q ph).1.readyIds → a ∈ q.readyIds := by
  intro a ha
  cases ph with
  | start =>
      cases hr : dequeueRead q now with
      | none =>
          simp only [wstep, hr] at ha
          exact ha
      | some id =>
          simp only [wstep, hr] at ha
          exact ha
  | claiming id =>
      simp only [wstep, QState.readyIds, dequeueClaim_ready] at ha
      exact (mem_zkeys_zrem.mp ha).1
  | finished r => exact ha

/-- If a worker step ends in `finished (some j)`, either it was already
finished with `j`, or the step was the claim of `j`: the claim found `j`
in the ready set and the post-state no longer contains it. -/
theorem wstep_finished_some (now : ℤ) (q : QState) (ph : WPhase)
    (j : String) (h : (wstep now q ph).2 = WPhase.finished (some j)) :
    ph = WPhase.finished (some j) ∨
    (ph = WPhase.claiming j ∧ j ∈ q.readyIds ∧
      j ∉ (wstep now q ph).1.readyIds) := by
  cases ph with
  | start =>
      exfalso
      cases hr : dequeueRead q now with
      | none =>
          simp only [wstep, hr] at h
          simp at h
      | some id =>
          simp only [wstep, hr] at h
          simp at h
  | claiming id =>
      right
      by_cases hok : (dequeueClaim q id now).2 = true
      · simp only [wstep, hok, if_true, WPhase.finished.injEq,
          Option.some_inj] at h
        subst h
        refine ⟨rfl, dequeueClaim_snd_true.mp hok, ?_⟩
        simp only [wstep, QState.readyIds, dequeueClaim_ready]
        intro hc
        exact (mem_zkeys_zrem.mp hc).2 rfl
      · exfalso
        simp only [wstep, Bool.eq_false_iff.mpr hok, Bool.false_eq_true,
          if_false] at h
        simp at h
  | finished r =>
      left
      simp only [wstep] at h
      exact h

theorem pairInv_step (j : String) (t1 t2 : ℤ) (c : PairCfg) (w : Bool)
    (h : PairInv j c) : PairInv j (stepPair t1 t2 c w) := by
  obtain ⟨h1, h2, h12⟩ := h
  cases w with
  | true =>
      refine ⟨?_, ?_, ?_⟩
      · intro hf
        rcases wstep_finished_some t1 c.q c.w1 j hf with hfin | ⟨_, _, hout⟩
        · have hni := h1 hfin
          exact fun hc => hni (wstep_ready_subset t1 c.q c.w1 j hc)
        · exact hout
      · intro hf
        have hni := h2 hf
        exact fun hc => hni (wstep_ready_subset t1 c.q c.w1 j hc)
      · rintro ⟨hf1, hf2⟩
        rcases wstep_finished_some t1 c.q c.w1 j hf1 with hfin | ⟨_, hin, _⟩
        · exact h12 ⟨hfin, hf2⟩
        · exact (h2 hf2) hin
  | false =>
      refine ⟨?_, ?_, ?_⟩
      · intro hf
        have hni := h1 hf
        exact fun hc => hni (wstep_ready_subset t2 c.q c.w2 j hc)
      · intro hf
        rcases wstep_finished_some t2 c.q c.w2 j hf with hfin | ⟨_, _, hout⟩
        · have hni := h2 hfin
          exact fun hc => hni (wstep_ready_subset t2 c.q c.w2 j hc)
        · exact hout
      · rintro ⟨hf1, hf2⟩
        rcases wstep_finished_some t2 c.q c.w2 j hf2 with hfin | ⟨_, hin, _⟩
        · exact h12 ⟨hf1, hfin⟩
        · exact (h1 hf1) hin

theorem pairInv_run (j : String) (t1 t2 : ℤ) (q : QState)
    (sched : List Bool) : PairInv j (runPair t1 t2 q sched) := by
  unfold runPair
  have hgen : ∀ (l : List Bool) (c : PairCfg), PairInv j c →
      PairInv j (l.foldl (stepPair t1 t2) c) := by
    intro l
    induction l with
    | nil => intro c hc; exact hc
    | cons b rest ih =>
        intro c hc
        rw [List.foldl_cons]
        exact ih _ (pairInv_step j t1 t2 c b hc)
  apply hgen
  refine ⟨?_, ?_, ?_⟩
  · intro hf; exact absurd hf (by simp)
  · intro hf; exact absurd hf (by simp)
  · rintro ⟨hf, _⟩; exact absurd hf (by simp)

/-! ## Lemmas for the set-disjointness analysis -/

theorem mem_insertEntry {p a : String × ℤ} {l : List (String × ℤ)}
    (h : a ∈ insertEntry p l) : a = p ∨ a ∈ l := by
  induction l with
  | nil =>
      left
      exact List.mem_singleton.mp h
  | cons q t ih =>
      unfold insertEntry at h
      by_cases hlt : entryLt p q = true
      · rw [if_pos hlt] at h
        rcases List.mem_cons.mp h with h1 | h2
        · left
          exact h1
        · right
          exact h2
      · rw [if_neg hlt] at h
        rcases List.mem_cons.mp h with h1 | h2
        · right
          rw [h1]
          exact List.mem_cons_self q t
        · rcases ih h2 with h3 | h3
          · left
            exact h3
          · right
            exact List.mem_cons_of_mem q h3

theorem mem_foldr_insertEntry {l : List (String × ℤ)} {a : String × ℤ}
    (h : a ∈ l.foldr insertEntry []) : a ∈ l := by
  induction l with
  | nil => exact absurd h (List.not_mem_nil a)
  | cons p t ih =>
      rw [List.foldr_cons] at h
      rcases mem_insertEntry h with h1 | h2
      · rw [h1]
        exact List.mem_cons_self p t
      · exact List.mem_cons_of_mem p (ih h2)

theorem zrangeByScore_mem {z : ZSet} {lo hi : ℤ} {e : String × ℤ}
    (h : e ∈ zrangeByScore z lo hi) : e ∈ z := by
  unfold zrangeByScore at h
  exact (List.mem_filter.mp (mem_foldr_insertEntry h)).1

/-- `complete_job` never touches the ready set. -/
theorem complete_job_ready (st : Store) (q : QState) (id : String)
    (success : Bool) :
    (complete_job st q id success).2.1.ready = q.ready := by
  unfold complete_job
  cases success with
  | true => rfl
  | false =>
      by_cases h : should_retry_job st id = true
      · simp only [Bool.false_eq_true, if_false, h, if_true]
        rw [schedule_retry_snd]
      · simp only [Bool.false_eq_true, if_false, h, if_true]

/-- `complete_job` always removes the id from the processing set. -/
theorem complete_job_processing (st : Store) (q : QState) (id : String)
    (success : Bool) :
    (complete_job st q id success).2.1.processing
      = srem q.processing id := by
  unfold complete_job
  cases success with
  | true => rfl
  | false =>
      by_cases h : should_retry_job st id = true
      · simp only [Bool.false_eq_true, if_false, h, if_true]
        rw [schedule_retry_snd]
      · simp only [Bool.false_eq_true, if_false, h, if_true]

theorem promoteStep_ready (now : ℤ) (acc : QState × Nat) (id : String) :
    (promoteStep now acc id).1.ready = (zadd acc.1.ready id now).1 := by
  simp only [promoteStep]
  split <;> rfl

theorem promoteStep_retryQ (now : ℤ) (acc : QState × Nat) (id : String) :
    (promoteStep now acc id).1.retryQ = (zrem acc.1.retryQ id).1 := by
  simp only [promoteStep]
  split <;> rfl

theorem promoteStep_processing (now : ℤ) (acc : QState × Nat)
    (id : String) :
    (promoteStep now acc id).1.processing = acc.1.processing := by
  simp only [promoteStep]
  split <;> rfl

/-- Disjointness transfers along field relations: same ready set, a
processing set that only shrank, same retry set. -/
theorem disjoint_of_fields {q q' : QState} (h : DisjointSets q)
    (hr : q'.ready = q.ready)
    (hp : ∀ m, m ∈ q'.processing → m ∈ q.processing)
    (hq : q'.retryQ = q.retryQ) : DisjointSets q' := by
  obtain ⟨h1, h2⟩ := h
  refine ⟨?_, ?_⟩
  · intro m hm
    have hm' : m ∈ q.readyIds := by
      unfold QState.readyIds at hm ⊢
      rw [← hr]
      exact hm
    obtain ⟨hp1, hr1⟩ := h1 m hm'
    refine ⟨fun hc => hp1 (hp m hc), ?_⟩
    unfold QState.retryIds at hr1 ⊢
    rw [hq]
    exact hr1
  · intro m hm
    have hnr := h2 m (hp m hm)
    unfold QState.retryIds at hnr ⊢
    rw [hq]
    exact hnr

theorem disjoint_dequeue (q : QState) (now : ℤ) (h : DisjointSets q) :
    DisjointSets (dequeue_job q now).1 := by
  unfold dequeue_job
  cases hr : dequeueRead q now with
  | none => exact h
  | some id =>
      show DisjointSets (dequeueClaim q id now).1
      have hid : id ∈ q.readyIds := dequeueRead_mem hr
      obtain ⟨h1, h2⟩ := h
      obtain ⟨hidp, hidr⟩ := h1 id hid
      refine ⟨?_, ?_⟩
      · intro m hm
        have hm' : m ∈ zkeys (zrem q.ready id).1 := by
          unfold QState.readyIds at hm
          rw [dequeueClaim_ready] at hm
          exact hm
        obtain ⟨hmq, hmne⟩ := mem_zkeys_zrem.mp hm'
        obtain ⟨hp1, hr1⟩ := h1 m hmq
        refine ⟨?_, ?_⟩
        · rw [dequeueClaim_processing]
          intro hc
          rcases mem_sadd.mp hc with hc2 | hc2
          · exact hp1 hc2
          · exact hmne hc2
        · unfold QState.retryIds
          rw [dequeueClaim_retryQ]
          exact hr1
      · intro m hm
        rw [dequeueClaim_processing] at hm
        rcases mem_sadd.mp hm with hc | hc
        · have hnr := h2 m hc
          unfold QState.retryIds at hnr ⊢
          rw [dequeueClaim_retryQ]
          exact hnr
        · subst hc
          unfold QState.retryIds at hidr ⊢
          rw [dequeueClaim_retryQ]
          exact hidr

theorem disjoint_complete (st : Store) (q : QState) (id : String)
    (success : Bool) (h : DisjointSets q) :
    DisjointSets (complete_job st q id success).2.1 :=
  disjoint_of_fields h (complete_job_ready st q id success)
    (fun m hm => by
      rw [complete_job_processing] at hm
      exact (mem_srem.mp hm).1)
    (complete_job_retryQ st q id success)

theorem disjoint_promoteStep (now : ℤ) (q0 : QState)
    (hq0 : DisjointSets q0) (acc : QState × Nat) (id : String)
    (hacc : DisjointSets acc.1) (hproc : acc.1.processing = q0.processing)
    (hid : id ∈ q0.retryIds) :
    DisjointSets (promoteStep now acc id).1 ∧
    (promoteStep now acc id).1.processing = q0.processing := by
  have hidnp : id ∉ q0.processing := fun hc => (hq0.2 id hc) hid
  constructor
  · refine ⟨?_, ?_⟩
    · intro m hm
      have hm' : m ∈ zkeys (zadd acc.1.ready id now).1 := by
        unfold QState.readyIds at hm
        rw [promoteStep_ready] at hm
        exact hm
      rcases mem_zkeys_zadd.mp hm' with hmem | heq
      · obtain ⟨hp1, hr1⟩ := hacc.1 m hmem
        refine ⟨?_, ?_⟩
        · rw [promoteStep_processing]
          exact hp1
        · unfold QState.retryIds
          rw [promoteStep_retryQ]
          intro hc
          exact hr1 (mem_zkeys_zrem.mp hc).1
      · subst heq
        refine ⟨?_, ?_⟩
        · rw [promoteStep_processing, hproc]
          exact hidnp
        · unfold QState.retryIds
          rw [promoteStep_retryQ]
          intro hc
          exact (mem_zkeys_zrem.mp hc).2 rfl
    · intro m hm
      rw [promoteStep_processing] at hm
      have hnr := hacc.2 m hm
      unfold QState.retryIds at hnr ⊢
      rw [promoteStep_retryQ]
      intro hc
      exact hnr (mem_zkeys_zrem.mp hc).1
  · rw [promoteStep_processing]
    exact hproc

theorem disjoint_promote_fold (now : ℤ) (q0 : QState)
    (hq0 : DisjointSets q0) :
    ∀ (ids : List String) (acc : QState × Nat),
      DisjointSets acc.1 → acc.1.processing = q0.processing →
      (∀ x ∈ ids, x ∈ q0.retryIds) →
      DisjointSets (ids.foldl (promoteStep now) acc).1 := by
  intro ids
  induction ids with
  | nil =>
      intro acc h1 _ _
      exact h1
  | cons x rest ih =>
      intro acc h1 h2 h3
      rw [List.foldl_cons]
      obtain ⟨hD, hP⟩ := disjoint_promoteStep now q0 hq0 acc x h1 h2
        (h3 x (List.mem_cons_self x rest))
      exact ih _ hD hP (fun y hy => h3 y (List.mem_cons_of_mem x hy))

theorem disjoint_promote (q : QState) (now : ℤ) (h : DisjointSets q) :
    DisjointSets (process_retry_queue q now).1 := by
  show DisjointSets
    (((zrangeByScore q.retryQ 0 now).map (·.1)).foldl (promoteStep now)
      (q, 0)).1
  apply disjoint_promote_fold now q h _ (q, 0) h rfl
  intro x hx
  rcases List.mem_map.mp hx with ⟨e, he, hex⟩
  exact mem_zkeys.mpr ⟨e, zrangeByScore_mem he, hex⟩

theorem disjoint_cleanupStep (a now : ℤ) (acc : Store × QState × Nat)
    (id : String) (h : DisjointSets acc.2.1) :
    DisjointSets (cleanupStep a now acc id).2.1 := by
  cases hk : kvGet acc.2.1.procStamp id with
  | none =>
      simp only [cleanupStep, hk]
      rw [schedule_retry_snd]
      exact disjoint_of_fields h rfl (fun m hm => (mem_srem.mp hm).1) rfl
  | some start =>
      by_cases hs : a < now - start
      · simp only [cleanupStep, hk, if_pos hs]
        rw [schedule_retry_snd]
        exact disjoint_of_fields h rfl (fun m hm => (mem_srem.mp hm).1) rfl
      · simp only [cleanupStep, hk, if_neg hs]
        exact h

theorem disjoint_cleanup_fold (a now : ℤ) :
    ∀ (ids : List String) (acc : Store × QState × Nat),
      DisjointSets acc.2.1 →
      DisjointSets (ids.foldl (cleanupStep a now) acc).2.1 := by
  intro ids
  induction ids with
  | nil =>
      intro acc h
      exact h
  | cons x rest ih =>
      intro acc h
      rw [List.foldl_cons]
      exact ih _ (disjoint_cleanupStep a now acc x h)

theorem disjoint_cleanup (st : Store) (q : QState) (a now : ℤ)
    (h : DisjointSets q) :
    DisjointSets (cleanup_stale_jobs st q a now).2.1 := by
  unfold cleanup_stale_jobs
  exact disjoint_cleanup_fold a now q.processing (st, q, 0) h

/-! ## Claims -/

/-- Claim C2 counterexample.  The claim states that with jobs A(priority 5)
and B(priority 1) enqueued B then A, dequeue returns A before B.  On
`JobQueue` (services/queue.py) the score is `now + delay + priority*1000`
and `dequeue_job` serves the *lowest* score among entries with score ≤ now
(the source comment says "lower priority numbers … are processed first"),
so at time 6000 — when both entries are eligible — the first dequeue
returns B, not A; A is not even eligible before time 5000. -/
theorem C2_counterexample :
    (dequeue_job c2State 6000).2 = some "B" ∧
    (some "B" : Option String) ≠ some "A" := by
  constructor
  · decide
  · decide

/-- Claim C2 as amended.  The higher-numeric-priority-first behaviour
holds on the `RedisQueue` path used by the API route and the worker
(score = priority, `BZPOPMAX` pops the maximum): with B(priority 1)
enqueued before A(priority 5), dequeue returns A, then B.  On
`JobQueue.dequeue_job` the order is reversed: the job with the *lower*
priority number is served first once eligible (priority p delays
eligibility by p·1000 seconds), so B is returned before A. -/
theorem C2_amended :
    (∀ pa pb : Int, pb < pa →
      (rqDequeue (rqEnqueue (rqEnqueue {} "B" pb).1 "A" pa).1).2
          = some "A" ∧
        (rqDequeue
            (rqDequeue (rqEnqueue (rqEnqueue {} "B" pb).1 "A" pa).1).1).2
          = some "B") ∧
    (dequeue_job c2State 6000).2 = some "B" ∧
    (dequeue_job (dequeue_job c2State 6000).1 6000).2 = some "A" := by
  refine ⟨?_, ?_, ?_⟩
  · intro pa pb h
    have he : entryLt ("B", pb) ("A", pa) = true := by
      unfold entryLt
      rw [decide_eq_true h]
      rfl
    have hq : (rqEnqueue (rqEnqueue {} "B" pb).1 "A" pa).1
        = { queue := [("B", pb), ("A", pa)], processing := [] } := rfl
    have hfold : [("B", pb), ("A", pa)].foldl pickMax none
        = some ("A", pa) := by
      simp only [List.foldl_cons, List.foldl_nil, pickMax]
      rw [if_pos he]
    have hs1 : rqDequeue { queue := [("B", pb), ("A", pa)], processing := [] }
        = ({ queue := [("B", pb)], processing := [("A", pa)] }, some "A") := by
      unfold rqDequeue zpopmax
      rw [hfold]
      rfl
    rw [hq, hs1]
    exact ⟨rfl, rfl⟩
  · decide
  · decide

/-- Witness for the generic conjunct of `C2_amended` at the claim's own
priorities 5 and 1. -/
theorem C2_amended_witness :
    (rqDequeue (rqEnqueue (rqEnqueue {} "B" 1).1 "A" 5).1).2 = some "A" ∧
    (rqDequeue
        (rqDequeue (rqEnqueue (rqEnqueue {} "B" 1).1 "A" 5).1).1).2
      = some "B" :=
  C2_amended.1 5 1 (by decide)

/-- Claim C3 counterexample.  The claim states stale reclamation goes
through the same retry-or-dead-letter branch as a failure completion.
Concretely: job "j" is in flight with retries exhausted
(`retry_count = max_retries = 2`) and its claim is 4000s old against a
3600s timeout.  `complete_job(success=False)` would dead-letter it, but
`cleanup_stale_jobs` schedules a retry instead: it leaves the dead-letter
list empty and pushes `retry_count` to 3, past `max_retries`. -/
theorem C3_counterexample :
    (cleanup_stale_jobs (some c3Db) c3Q 3600 4000).2.1.dlq = [] ∧
    dbGet ((cleanup_stale_jobs (some c3Db) c3Q 3600 4000).1.getD []) "j"
      = some { retry_count := 3, max_retries := 2, status := JobStatus.retrying } ∧
    (complete_job (some c3Db) c3Q "j" false).2.1.dlq = ["j"] := by
  refine ⟨?_, ?_, ?_⟩ <;> decide

/-- Claim C3 as amended.  Reclaiming a stale in-flight job removes it
from the in-flight set and consumes exactly one retry attempt
(`retry_count + 1`, status RETRYING), but it does not go through the
retry-or-dead-letter branch: `_should_retry_job` is never consulted, the
dead-letter list is never touched, and the increment happens regardless
of retries remaining (and, due to the missing retry settings, the job is
not actually placed in the retry-delayed set either). -/
theorem C3_amended (db : DB) (q : QState) (id : String) (j : DBJob)
    (start maxAge now : ℤ)
    (hproc : q.processing = [id])
    (hstamp : kvGet q.procStamp id = some start)
    (hstale : maxAge < now - start)
    (hjob : dbGet db id = some j) :
    cleanup_stale_jobs (some db) q maxAge now
      = (some (dbSet db id
            { j with
              retry_count := j.retry_count + 1
              status := JobStatus.retrying }),
         { q with
           processing := srem q.processing id
           procStamp := kvDel q.procStamp id }, 1) := by
  simp only [cleanup_stale_jobs, hproc, List.foldl_cons, List.foldl_nil,
    cleanupStep, hstamp, hstale, if_true, schedule_retry, hjob]

/-- Witness for `C3_amended` at a concrete stale job. -/
theorem C3_amended_witness :
    cleanup_stale_jobs (some c3Db) c3Q 3600 4000
      = (some (dbSet c3Db "j"
            { retry_count := 3, max_retries := 2, status := JobStatus.retrying,
              error_message := none, started_at := none, completed_at := none,
              priority := 0 }),
         { c3Q with
           processing := srem c3Q.processing "j"
           procStamp := kvDel c3Q.procStamp "j" }, 1) :=
  C3_amended c3Db c3Q "j"
    { retry_count := 2, max_retries := 2, status := JobStatus.running }
    0 3600 4000 (by decide) (by decide) (by decide) (by decide)

/-- Claim C4 counterexample.  The claim states the retry increment is a
no-op returning the previous state when it would push `retry_count` past
`max_retries`.  `JobCRUD.increment_retry_count` has no such guard: on a
row with `retry_count = max_retries = 3` it increments to 4 and resets
status to PENDING. -/
theorem C4_counterexample :
    (increment_retry_count c4Db "j").2
      = some { retry_count := 4, max_retries := 3, status := JobStatus.pending } ∧
    ¬ (4 ≤ 3) := by
  constructor
  · decide
  · decide

/-- Claim C4 as amended.  `increment_retry_count` increments
unconditionally — it is never a no-op on an existing row, whatever the
retry counts (first conjunct).  The invariant `retry_count ≤ max_retries`
is nevertheless preserved by `complete_job`, because its failure path
increments only after `_should_retry_job` has checked
`retry_count < max_retries` (second conjunct).  It is *not* preserved by
stale reclamation, which increments without that check (see
`C3_counterexample`). -/
theorem C4_amended :
    (∀ (db : DB) (id : String) (j : DBJob), dbGet db id = some j →
      (increment_retry_count db id).2 = some { j with
        retry_count := j.retry_count + 1
        status := JobStatus.pending
        error_message := none
        started_at := none
        completed_at := none }) ∧
    (∀ (st : Store) (q : QState) (id : String) (success : Bool),
      StoreInv st → StoreInv (complete_job st q id success).1) := by
  constructor
  · intro db id j h
    unfold increment_retry_count
    rw [h]
  · intro st q id success hinv
    unfold complete_job
    cases success with
    | true => exact hinv
    | false =>
        by_cases h : should_retry_job st id = true
        · simp only [Bool.false_eq_true, if_false, h, if_true]
          cases st with
          | none => exact absurd h (by simp [should_retry_job])
          | some db =>
              cases hg : dbGet db id with
              | none =>
                  exfalso
                  simp [should_retry_job, hg] at h
              | some j =>
                  have hlt : j.retry_count < j.max_retries := by
                    simp only [should_retry_job, hg] at h
                    exact of_decide_eq_true h
                  simp only [schedule_retry, hg]
                  intro p hp
                  rcases dbSet_mem hp with he | hmem
                  · rw [he]
                    exact hlt
                  · exact hinv p hmem
        · simp only [Bool.false_eq_true, if_false, h, if_true]
          exact hinv

/-- Witness for `C4_amended` at concrete inputs. -/
theorem C4_amended_witness :
    (increment_retry_count c4Db "j").2
      = some { retry_count := 4, max_retries := 3, status := JobStatus.pending } ∧
    StoreInv (complete_job c5Store c5Q "j" false).1 :=
  ⟨C4_amended.1 c4Db "j"
      { retry_count := 3, max_retries := 3, status := JobStatus.failed }
      (by decide),
    C4_amended.2 c5Store c5Q "j" false
      (by intro p hp; rw [List.mem_singleton.mp hp]; decide)⟩

/-- Claim C5 counterexample.  The claim states a job with
`max_retries = 2` failed three times ends with status FAILED in the job
store.  Running `complete_job(success=False)` three times on job "j"
leaves the *store* row at status RETRYING (the third completion writes
"failed" only to the Redis status cache and pushes the id to the
dead-letter list; no FAILED status is ever written to the store). -/
theorem C5_counterexample :
    c5Run3.1
      = some [("j", { retry_count := 2, max_retries := 2, status := JobStatus.retrying })] ∧
    JobStatus.retrying ≠ JobStatus.failed := by
  constructor
  · decide
  · decide

/-- Claim C5 as amended.  After three failure reports the job has
`retry_count = 2`, appears in the dead-letter list exactly once, is never
re-enqueued (ready and retry-delayed sets stay empty), and the "failed"
marker lives only in the Redis status cache: the job-store status remains
RETRYING, not FAILED. -/
theorem C5_amended :
    c5Run3.2.1.dlq = ["j"] ∧
    c5Run3.1
      = some [("j", { retry_count := 2, max_retries := 2, status := JobStatus.retrying })] ∧
    kvGet c5Run3.2.1.statusCache "j" = some "failed" ∧
    c5Run3.2.1.ready = [] ∧
    c5Run3.2.1.retryQ = [] := by
  refine ⟨?_, ?_, ?_, ?_, ?_⟩ <;> decide

/-- Claim C6 counterexample.  The claim states a duplicate enqueue is a
no-op that changes no queue state and in particular does not alter the
existing entry's score.  With "j" in the ready set at score 100, a second
`enqueue_job` at time 50 returns False *and* overwrites the score to 50:
the state does change. -/
theorem C6_counterexample :
    (enqueue_job c6Q "j" 0 0 50).2 = false ∧
    zscore (enqueue_job c6Q "j" 0 0 50).1.ready "j" = some 50 ∧
    (enqueue_job c6Q "j" 0 0 50).1 ≠ c6Q := by
  refine ⟨?_, ?_, ?_⟩ <;> decide

/-- Claim C6 as amended.  A second enqueue of an id already in the ready
set returns False (the `ZADD` reply is 0) but overwrites the entry's
score with the newly computed `now + delay + priority*1000`; and an id
present in the in-flight set is inserted into the ready set anyway —
`enqueue_job` checks neither the in-flight nor the retry-delayed set, so
it is not a cross-set no-op. -/
theorem C6_amended :
    (∀ (q : QState) (id : String) (priority : Int) (delay now s0 : ℤ),
      zscore q.ready id = some s0 →
      (enqueue_job q id priority delay now).2 = false ∧
      zscore (enqueue_job q id priority delay now).1.ready id
        = some (now + delay + priority * 1000)) ∧
    (∀ (q : QState) (id : String) (priority : Int) (delay now : ℤ),
      id ∈ q.processing →
      id ∈ (enqueue_job q id priority delay now).1.readyIds) := by
  constructor
  · intro q id priority delay now s0 h
    have hany := zscore_any h
    have h2 := zadd_snd_false q.ready id (now + delay + priority * 1000) hany
    simp only [enqueue_job]
    rw [h2]
    simp only [Bool.false_eq_true, if_false]
    exact ⟨trivial, zscore_zadd_self q.ready id _⟩
  · intro q id priority delay now hmem
    simp only [enqueue_job, QState.readyIds]
    split
    · exact mem_zkeys_zadd.mpr (Or.inr rfl)
    · exact mem_zkeys_zadd.mpr (Or.inr rfl)

/-- Witness for `C6_amended` at concrete inputs. -/
theorem C6_amended_witness :
    ((enqueue_job c6Q "j" 0 0 50).2 = false ∧
      zscore (enqueue_job c6Q "j" 0 0 50).1.ready "j"
        = some (50 + 0 + 0 * 1000)) ∧
    "k" ∈ (enqueue_job { processing := ["k"] } "k" 0 0 0).1.readyIds :=
  ⟨C6_amended.1 c6Q "j" 0 0 50 100 (by decide),
    C6_amended.2 { processing := ["k"] } "k" 0 0 0 (by decide)⟩

/-- Claim C7 counterexample.  The claim states a Job-Store failure is
surfaced as an error and the operation does not proceed.  With the store
unavailable, `complete_job(success=False)` *returns True* (success) and
dead-letters the job: `_should_retry_job` swallowed the store exception
and answered False, so the operation proceeded with the default. -/
theorem C7_counterexample :
    (complete_job none ({} : QState) "j" false).2.2 = true ∧
    (complete_job none ({} : QState) "j" false).2.1.dlq = ["j"] := by
  constructor
  · decide
  · decide

/-- Claim C7 as amended.  On store unavailability the Queue Manager
swallows the failure instead of surfacing it: `_should_retry_job` returns
False, so `complete_job(success=False)` removes the job from in-flight,
marks the status cache "failed", pushes the id onto the dead-letter list
and reports True; `_schedule_retry` silently does nothing. -/
theorem C7_amended (q : QState) (id : String) :
    complete_job none q id false
      = (none,
          { q with
            processing := srem q.processing id
            procStamp := kvDel q.procStamp id
            statusCache := kvSet q.statusCache id "failed"
            dlq := id :: q.dlq }, true) ∧
    should_retry_job none id = false ∧
    schedule_retry none q id = (none, q) := by
  refine ⟨rfl, rfl, rfl⟩

/-- Claim C8 (code bug evidence).  The claim states the scheduled retry
delay equals `min(backoff_base · multiplier^(retry_count−1), backoff_max)`.
In the source no retry delay is ever scheduled: `complete_job` leaves the
retry-delayed set untouched in every branch, `_schedule_retry` changes no
queue structure at all (the delay formula at queue.py lines 204-207 is
unreachable because `Settings` lacks the `RETRY_DELAY`/`RETRY_BACKOFF`
fields it reads), and the worker's own retry path
(`RedisQueue.retry_job`) re-enqueues immediately with score = priority —
no delay whatsoever. -/
theorem C8_no_retry_delay_scheduled :
    (∀ (st : Store) (q : QState) (id : String) (success : Bool),
      (complete_job st q id success).2.1.retryQ = q.retryQ) ∧
    (∀ (st : Store) (q : QState) (id : String),
      (schedule_retry st q id).2 = q) ∧
    (∀ (s : RQState) (id : String) (priority : Int),
      zscore (rqRetryJob s id priority).1.queue id = some priority) := by
  refine ⟨complete_job_retryQ, schedule_retry_snd, ?_⟩
  intro s id priority
  exact zscore_zadd_self s.queue id priority

/-- Claim C10 counterexample.  The claim states a cache hit yields the
same recorded result as running without the cache, for the job's URL,
selector and options.  The cache key is a function of the URL alone
(`sha256(url)[:16]`), so after job 1 (selector `h1`) fills the cache,
job 2 — same URL, selector `.price` — hits job 1's entry: the recorded
payload is the `h1` scrape, while a no-cache run would record the
`.price` scrape. -/
theorem C10_counterexample :
    (worker_run_job c10KeyFn c10Scrape c10Cache1 c10Job2).1 = "h1" ∧
    worker_run_job_nocache c10Scrape c10Job2 = ".price" ∧
    (worker_run_job c10KeyFn c10Scrape c10Cache1 c10Job2).1
      ≠ worker_run_job_nocache c10Scrape c10Job2 := by
  refine ⟨?_, ?_, ?_⟩ <;> decide

/-- Claim C10 as amended.  The cache-hit execution is observationally
equivalent to the no-cache execution exactly when every cache entry under
the job's URL key holds what scraping with the job's own selector would
produce — e.g. when all jobs sharing a URL also share selector and
options.  Because the key ignores selector and options, that side
condition is not guaranteed by the code (see the counterexample). -/
theorem C10_amended {α : Type} (keyFn : String → String)
    (scrape : String → Option String → α) (cache : List (String × α))
    (j : WJob)
    (hconsistent : ∀ r, get_cached_url_result keyFn cache j.url = some r →
      r = scrape j.url j.selector) :
    (worker_run_job keyFn scrape cache j).1
      = worker_run_job_nocache scrape j := by
  unfold worker_run_job worker_run_job_nocache
  cases h : get_cached_url_result keyFn cache j.url with
  | none => rfl
  | some r => exact hconsistent r h

/-- Witness for `C10_amended` at a genuine cache hit: `c10HitCache` holds
`".price"` under job 2's URL key — exactly job 2's own scrape — so the
consistency hypothesis is discharged by an actual hit (first conjunct),
and the cache-hit run equals the no-cache run. -/
theorem C10_amended_witness :
    get_cached_url_result c10KeyFn c10HitCache c10Job2.url
      = some ".price" ∧
    (worker_run_job c10KeyFn c10Scrape c10HitCache c10Job2).1
      = worker_run_job_nocache c10Scrape c10Job2 :=
  ⟨by decide,
    C10_amended c10KeyFn c10Scrape c10HitCache c10Job2
      (fun r h => by
        have hr : (some ".price" : Option String) = some r := by
          rw [← h]
          decide
        rw [← Option.some_inj.mp hr]
        rfl)⟩

/-- Claim C1: no double dispatch.  For any initial queue state, any two
dequeue times, and any interleaving of the two atomic steps (observe,
claim) of two concurrent `JobQueue.dequeue_job` calls, if worker 1's call
returned job `j` then worker 2's call did not: the claim pipeline's `ZREM`
succeeds for exactly one worker, because the remove-and-claim is a single
atomic `MULTI/EXEC` step and a job removed from the ready set cannot be
removed again.  (Both workers may *observe* the same ready entry, but at
most one claims it; the loser returns None.) -/
theorem C1_no_double_dispatch (t1 t2 : ℤ) (q : QState) (sched : List Bool)
    (j : String)
    (h : (runPair t1 t2 q sched).w1 = WPhase.finished (some j)) :
    (runPair t1 t2 q sched).w2 ≠ WPhase.finished (some j) := by
  intro h2
  exact (pairInv_run j t1 t2 q sched).2.2 ⟨h, h2⟩

/-- Witness for `C1_no_double_dispatch`: a concrete schedule in which
worker 1 claims job "a"; worker 2 does not also return it. -/
theorem C1_no_double_dispatch_witness :
    (runPair 0 0 { ready := [("a", 0)] } [true, true, false, false]).w2
      ≠ WPhase.finished (some "a") :=
  C1_no_double_dispatch 0 0 { ready := [("a", 0)] }
    [true, true, false, false] "a" (by decide)

/-- Claim C9 counterexample.  The claim states every queue operation
preserves the disjointness of the three sets.  `enqueue_job` does not:
with "j" in the in-flight set, enqueueing "j" inserts it into the ready
set (the in-flight and retry-delayed sets are never consulted), leaving
"j" in two sets at once. -/
theorem C9_counterexample :
    DisjointSets { processing := ["j"] } ∧
    ¬ DisjointSets (enqueue_job { processing := ["j"] } "j" 0 0 0).1 := by
  constructor
  · refine ⟨?_, ?_⟩
    · intro m hm
      exact absurd hm (List.not_mem_nil m)
    · intro m _
      exact List.not_mem_nil m
  · intro hd
    have h1 := hd.1 "j" (by decide)
    exact h1.1 (by decide)

/-- Claim C9 as amended.  Dequeue, completion, retry scheduling,
retry-queue promotion and stale reclamation each preserve the pairwise
disjointness of the ready, in-flight and retry-delayed sets; `enqueue_job`
does not (see the counterexample), because it inserts into the ready set
without checking the other two. -/
theorem C9_amended :
    (∀ (q : QState) (now : ℤ), DisjointSets q →
        DisjointSets (dequeue_job q now).1) ∧
    (∀ (st : Store) (q : QState) (id : String) (success : Bool),
        DisjointSets q → DisjointSets (complete_job st q id success).2.1) ∧
    (∀ (st : Store) (q : QState) (id : String),
        DisjointSets q → DisjointSets (schedule_retry st q id).2) ∧
    (∀ (q : QState) (now : ℤ), DisjointSets q →
        DisjointSets (process_retry_queue q now).1) ∧
    (∀ (st : Store) (q : QState) (maxAge now : ℤ), DisjointSets q →
        DisjointSets (cleanup_stale_jobs st q maxAge now).2.1) :=
  ⟨fun q now h => disjoint_dequeue q now h,
   fun st q id success h => disjoint_complete st q id success h,
   fun st q id h => by rw [schedule_retry_snd]; exact h,
   fun q now h => disjoint_promote q now h,
   fun st q maxAge now h => disjoint_cleanup st q maxAge now h⟩

/-- Witness for `C9_amended` on a concrete three-set state. -/
theorem C9_amended_witness :
    DisjointSets (dequeue_job c9Q 10).1 ∧
    DisjointSets (complete_job (some []) c9Q "b" false).2.1 ∧
    DisjointSets (schedule_retry (some []) c9Q "c").2 ∧
    DisjointSets (process_retry_queue c9Q 10).1 ∧
    DisjointSets (cleanup_stale_jobs (some []) c9Q 5 20).2.1 := by
  have hc : DisjointSets c9Q := by
    unfold DisjointSets
    decide
  exact ⟨C9_amended.1 c9Q 10 hc,
    C9_amended.2.1 (some []) c9Q "b" false hc,
    C9_amended.2.2.1 (some []) c9Q "c" hc,
    C9_amended.2.2.2.1 c9Q 10 hc,
    C9_amended.2.2.2.2 (some []) c9Q 5 20 hc⟩

end AiScraper
